import Mathlib

set_option maxRecDepth 8000

/-!
Shallow embedding of `src/finance_tracker.py` (SimpleFinanceTracker).

The repository is a single-class pandas pipeline (`FinanceTracker`): it loads a
bank CSV/Excel export into a DataFrame (`self.data`), normalizes it
(`_process_data`), and derives summaries (`get_monthly_summary`,
`get_category_summary`, `get_basic_stats`) and an Excel report
(`export_report_with_charts`).

Modelling choices:
* A DataFrame row after `pd.read_csv`/`pd.to_datetime` is a `RawRow`: the two
  date columns are `Date` values, the two reconciliation columns `Dare`/`Avere`
  are `Option ℚ` (`none` models a NaN produced by a missing cell or by
  `pd.to_numeric(..., errors='coerce')` on an unparsable cell), the text
  columns are `String`.
* Numeric amounts are modelled as `ℚ` (exact decimals; the floats involved are
  small decimal literals, so float rounding plays no role in the claims).
* `self.data` is `Option (List Txn)`: `none` is the unloaded state
  (`self.data is None`), `some rows` the loaded ledger in file row order.
* Each method is a state transformer `FinanceTracker → result × FinanceTracker`,
  mirroring a Python method on `self`; the returned tracker is the value of
  `self` after the body runs.  None of the query methods assigns to
  `self.data`, which the transformer makes explicit.
* pandas `groupby` iterates distinct keys in ascending sorted order; this is
  modelled by `dedup` followed by `mergeSort`.  `Series.idxmax` returns the
  first index attaining the maximum, modelled by `idxmaxPair`/`seriesIdxmax`.
* File I/O, matplotlib chart rendering and xlsxwriter workbook writing are
  external collaborators (spec §1 puts them out of scope); the embedding keeps
  only the data-level behaviour of `export_report_with_charts`: its no-data
  guard and its confirmation message.
-/

/-- A calendar date, as produced by `pd.to_datetime(..., format='%d/%m/%Y')`. -/
structure Date where
  year : Nat
  month : Nat
  day : Nat
deriving DecidableEq, Repr

/-- One raw DataFrame row after `load_data`'s reading and date parsing,
before `_process_data`.  `dare`/`avere` are the values after
`pd.to_numeric(..., errors='coerce')`: `none` is NaN (missing cell or
unparsable text), `some q` a parsed number. -/
structure RawRow where
  dataContabile : Date
  valuta : Date
  dare : Option ℚ
  avere : Option ℚ
  categoria : String
  descrizione : String
  tag : String
deriving DecidableEq, Repr

/-- One normalized ledger row after `_process_data`: the raw columns plus the
derived `Amount`, `Month`, `Year` and `MonthYear` columns. -/
structure Txn where
  dataContabile : Date
  valuta : Date
  dare : Option ℚ
  avere : Option ℚ
  amount : ℚ
  month : Nat
  year : Nat
  monthYear : String
  categoria : String
  descrizione : String
  tag : String
deriving DecidableEq, Repr

/-- Left-pad a string with `'0'` up to width `w`, as C `strftime`-style
zero-padded numeric fields do. -/
def zeroPad (w : Nat) (s : String) : String :=
  if s.length < w then String.mk (List.replicate (w - s.length) '0') ++ s else s

/-- Models `d.strftime('%Y-%m')`: zero-padded 4-digit year, dash, zero-padded
2-digit month. -/
def periodKey (d : Date) : String :=
  zeroPad 4 (toString d.year) ++ "-" ++ zeroPad 2 (toString d.month)

/-- Models `_process_data` on one row: `Amount = Avere.fillna(0) + Dare.fillna(0)`,
`Month`/`Year` extracted from `Data contabile`, `MonthYear` its
`strftime('%Y-%m')`.  (The `Divisa`/`Causale` drop only removes columns the
embedding never carries.) -/
def processRow (r : RawRow) : Txn :=
  { dataContabile := r.dataContabile
    valuta := r.valuta
    dare := r.dare
    avere := r.avere
    amount := r.avere.getD 0 + r.dare.getD 0
    month := r.dataContabile.month
    year := r.dataContabile.year
    monthYear := periodKey r.dataContabile
    categoria := r.categoria
    descrizione := r.descrizione
    tag := r.tag }

/-- The tracker object: `self.data` is `None` until a successful load. -/
structure FinanceTracker where
  data : Option (List Txn)
deriving DecidableEq, Repr

/-- Models `FinanceTracker()`: starts with `self.data = None`. -/
def FinanceTracker.mkNew : FinanceTracker := ⟨none⟩

/-- Models `load_data` after the file has been read into raw rows (file reading and
format detection are collaborator I/O): stores the `_process_data`-normalized
ledger, in source row order. -/
def FinanceTracker.load_data (_t : FinanceTracker) (rows : List RawRow) :
    FinanceTracker :=
  ⟨some (rows.map processRow)⟩

/-- The informational no-data indicator string returned by every query method
when `self.data is None`. -/
def noDataMsg : String := "No data loaded. Please load data first."

/-- One row of an aggregated summary DataFrame: group key, summed `Amount`,
row count (`'Data contabile': 'count'`, and posting dates are never NaT). -/
structure SummaryRow where
  key : String
  amount : ℚ
  transactions : Nat
deriving DecidableEq, Repr

/-- Boolean string order for `mergeSort`. -/
def strLe (a b : String) : Bool := decide (a ≤ b)

/-- Distinct group keys in ascending order, as pandas `groupby` produces them. -/
def groupKeys (rows : List Txn) (f : Txn → String) : List String :=
  ((rows.map f).dedup).mergeSort strLe

/-- Models `groupby(f).agg({'Amount': 'sum', 'Data contabile': 'count'})`:
one `SummaryRow` per distinct key, keys ascending. -/
def summarizeBy (rows : List Txn) (f : Txn → String) : List SummaryRow :=
  (groupKeys rows f).map fun k =>
    let g := rows.filter fun t => f t = k
    ⟨k, (g.map Txn.amount).sum, g.length⟩

/-- Models `get_monthly_summary`: no-data guard, else group by `MonthYear` and
`sort_index()` (the `groupby` output is already key-ascending). -/
def FinanceTracker.get_monthly_summary (t : FinanceTracker) :
    (String ⊕ List SummaryRow) × FinanceTracker :=
  match t.data with
  | none => (Sum.inl noDataMsg, t)
  | some rows => (Sum.inr (summarizeBy rows Txn.monthYear), t)

/-- Boolean order on summary rows by summed amount, for `sort_values('Amount')`. -/
def amtLe (a b : SummaryRow) : Bool := decide (a.amount ≤ b.amount)

/-- Models `get_category_summary`: no-data guard, else group by `Categoria` and
`sort_values('Amount')` (ascending by summed amount). -/
def FinanceTracker.get_category_summary (t : FinanceTracker) :
    (String ⊕ List SummaryRow) × FinanceTracker :=
  match t.data with
  | none => (Sum.inl noDataMsg, t)
  | some rows => (Sum.inr ((summarizeBy rows Txn.categoria).mergeSort amtLe), t)

/-- Fold for `Series.idxmax`: keeps the first pair attaining the maximum value
(a later pair replaces the current best only when strictly greater). -/
def idxmaxPair (best : String × ℚ) : List (String × ℚ) → String × ℚ
  | [] => best
  | p :: rest => if best.2 < p.2 then idxmaxPair p rest else idxmaxPair best rest

/-- Models `Series.idxmax` on a key-indexed series: index label of the first maximal
value; `none` on the empty series (where pandas raises, a case the code guards
against). -/
def seriesIdxmax : List (String × ℚ) → Option String
  | [] => none
  | p :: rest => some (idxmaxPair p rest).1

/-- Models `groupby('Categoria')['Amount'].sum()` on a (sub-)ledger: per-category
summed amount, categories ascending. -/
def catAmountSums (rows : List Txn) : List (String × ℚ) :=
  (groupKeys rows Txn.categoria).map fun k =>
    (k, ((rows.filter fun t => t.categoria = k).map Txn.amount).sum)

/-- The dictionary returned by `get_basic_stats`. -/
structure BasicStats where
  totalIncome : ℚ
  totalExpenses : ℚ
  balance : ℚ
  averageExpense : ℚ
  averageIncome : ℚ
  topExpenseCategory : String
  topIncomeCategory : String
  totalTransactions : Nat
deriving DecidableEq, Repr

/-- Models the body of `get_basic_stats` on a loaded ledger: no-data guard, else totals over the strictly positive /
strictly negative amount filters, means guarded by emptiness (`mean` is
sum/count), top categories via `groupby('Categoria')['Amount'].sum()` (with
`.abs()` on the expense side) and `idxmax`, `"N/A"` when the filtered frame is
empty, and `len(self.data)` as the transaction count. -/
def basicStatsOf (rows : List Txn) : BasicStats :=
  let pos := rows.filter fun x => 0 < x.amount
  let neg := rows.filter fun x => x.amount < 0
  let income := (pos.map Txn.amount).sum
  let expense := (neg.map Txn.amount).sum
  let balance := income + expense
  let avgExpense := if 0 < neg.length then (neg.map Txn.amount).sum / (neg.length : ℚ) else 0
  let avgIncome := if 0 < pos.length then (pos.map Txn.amount).sum / (pos.length : ℚ) else 0
  let topExpenseCat :=
    if neg.isEmpty then "N/A"
    else (seriesIdxmax ((catAmountSums neg).map fun p => (p.1, |p.2|))).getD ("N/A")
  let topIncomeCat :=
    if pos.isEmpty then "N/A"
    else (seriesIdxmax (catAmountSums pos)).getD ("N/A")
  { totalIncome := income
    totalExpenses := expense
    balance := balance
    averageExpense := avgExpense
    averageIncome := avgIncome
    topExpenseCategory := topExpenseCat
    topIncomeCategory := topIncomeCat
    totalTransactions := rows.length }

def FinanceTracker.get_basic_stats (t : FinanceTracker) :
    (String ⊕ BasicStats) × FinanceTracker :=
  match t.data with
  | none => (Sum.inl noDataMsg, t)
  | some rows => (Sum.inr (basicStatsOf rows), t)

/-- Models `export_report_with_charts`: no-data guard, else the confirmation message
naming the output path.  Chart rendering and workbook writing are external
collaborators (out of scope per the spec); only the data-level result string is
modelled. -/
def FinanceTracker.export_report_with_charts (t : FinanceTracker)
    (output_path : String) : String × FinanceTracker :=
  match t.data with
  | none => (noDataMsg, t)
  | some _ => ("Report with charts exported to " ++ output_path, t)

/-- Spec-side definition, from the spec's words only: the mean of a list of
numbers, `0` when the list is empty ("average expense (mean of negative
amounts, zero if none)"). -/
def specMean (l : List ℚ) : ℚ :=
  if l = [] then 0 else l.sum / (l.length : ℚ)

/-- First row of the repository's sample CSV. -/
def sampleRow0 : RawRow :=
  ⟨⟨2025, 3, 12⟩, ⟨2025, 3, 10⟩, some (-100), none, "Ristoranti e bar", "Pagamento POS", ""⟩

/-- Second row of the repository's sample CSV. -/
def sampleRow1 : RawRow :=
  ⟨⟨2025, 3, 12⟩, ⟨2025, 3, 7⟩, some (-30), none, "Arte e Cultura", "PAGAMENTO VISA", ""⟩

/-- The sample ledger from the repository's `__main__` block: three March-2025
debits, no credits. -/
def sampleRaws : List RawRow :=
  [sampleRow0, sampleRow1,
   ⟨⟨2025, 3, 11⟩, ⟨2025, 3, 11⟩, some (-11.5), none, "Utenze", "ADDEBITO DIRETTO", ""⟩]

/-- A tracker that has loaded the sample ledger. -/
def sampleTracker : FinanceTracker := FinanceTracker.mkNew.load_data sampleRaws

/-- A ledger row whose amount is exactly zero (used as a concrete input). -/
def zeroTxn : Txn :=
  ⟨⟨2025, 4, 1⟩, ⟨2025, 4, 1⟩, none, none, 0, 4, 2025, "2025-04", "Altro", "", ""⟩

/-! Helper lemmas. -/

theorem toString_nat_eq_repr (n : Nat) : toString n = Nat.repr n := rfl

theorem length_zeroPad_of_le (w : Nat) (s : String) (h : s.length ≤ w) :
    (zeroPad w s).length = w := by
  unfold zeroPad
  by_cases hlt : s.length < w
  · rw [if_pos hlt, String.length_append]
    rw [String.length_mk, List.length_replicate]
    omega
  · rw [if_neg hlt]
    omega

/-! Claim theorems. -/

/-- C1: for every ledger produced by a successful load, each transaction's
normalized amount equals its credit (`Avere`) value plus its debit (`Dare`)
value, a missing-or-unparsable source value (modelled as `none`) contributing
zero; when both are missing/unparsable the amount is exactly `0`. -/
theorem C1_amount_is_avere_plus_dare (t0 : FinanceTracker) (raws : List RawRow)
    (txn : Txn) (h : txn ∈ ((t0.load_data raws).data).getD []) :
    txn.amount = txn.avere.getD 0 + txn.dare.getD 0 ∧
      (txn.avere = none → txn.dare = none → txn.amount = 0) := by
  simp only [FinanceTracker.load_data, Option.getD_some, List.mem_map] at h
  obtain ⟨r, -, rfl⟩ := h
  refine ⟨rfl, ?_⟩
  intro ha hd
  simp only [processRow] at ha hd ⊢
  rw [ha, hd]
  with_unfolding_all rfl

/-- Witness for C1 at the first sample row. -/
theorem C1_amount_is_avere_plus_dare_witness :
    processRow
        ⟨⟨2025, 3, 12⟩, ⟨2025, 3, 10⟩, some (-100), none, "Ristoranti e bar",
          "Pagamento POS", ""⟩ ∈
        ((FinanceTracker.mkNew.load_data sampleRaws).data).getD [] ∧
      ((processRow
            ⟨⟨2025, 3, 12⟩, ⟨2025, 3, 10⟩, some (-100), none, "Ristoranti e bar",
              "Pagamento POS", ""⟩).amount =
          (processRow
            ⟨⟨2025, 3, 12⟩, ⟨2025, 3, 10⟩, some (-100), none, "Ristoranti e bar",
              "Pagamento POS", ""⟩).avere.getD 0 +
            (processRow
              ⟨⟨2025, 3, 12⟩, ⟨2025, 3, 10⟩, some (-100), none, "Ristoranti e bar",
                "Pagamento POS", ""⟩).dare.getD 0 ∧
        ((processRow
            ⟨⟨2025, 3, 12⟩, ⟨2025, 3, 10⟩, some (-100), none, "Ristoranti e bar",
              "Pagamento POS", ""⟩).avere = none →
          (processRow
            ⟨⟨2025, 3, 12⟩, ⟨2025, 3, 10⟩, some (-100), none, "Ristoranti e bar",
              "Pagamento POS", ""⟩).dare = none →
          (processRow
            ⟨⟨2025, 3, 12⟩, ⟨2025, 3, 10⟩, some (-100), none, "Ristoranti e bar",
              "Pagamento POS", ""⟩).amount = 0)) :=
  ⟨by with_unfolding_all decide,
    C1_amount_is_avere_plus_dare FinanceTracker.mkNew sampleRaws _
      (by with_unfolding_all decide)⟩

/-- C3: a tracker in the unloaded state (`self.data is None`) returns the
informational no-data indicator string from every summary/report method; in
the embedding all methods are total functions, so no exception can occur. -/
theorem C3_unloaded_returns_no_data (t : FinanceTracker) (h : t.data = none) :
    (t.get_monthly_summary).1 = Sum.inl noDataMsg ∧
      (t.get_category_summary).1 = Sum.inl noDataMsg ∧
      (t.get_basic_stats).1 = Sum.inl noDataMsg ∧
      ∀ output_path : String,
        (t.export_report_with_charts output_path).1 = noDataMsg := by
  obtain ⟨d⟩ := t
  cases h
  exact ⟨rfl, rfl, rfl, fun _ => rfl⟩

/-- Witness for C3 at a freshly constructed tracker. -/
theorem C3_unloaded_returns_no_data_witness :
    FinanceTracker.mkNew.data = none ∧
      (FinanceTracker.mkNew.get_monthly_summary).1 = Sum.inl noDataMsg ∧
      (FinanceTracker.mkNew.get_category_summary).1 = Sum.inl noDataMsg ∧
      (FinanceTracker.mkNew.get_basic_stats).1 = Sum.inl noDataMsg ∧
      (FinanceTracker.mkNew.export_report_with_charts ("my_financial_report.xlsx")).1 =
        noDataMsg :=
  ⟨rfl, (C3_unloaded_returns_no_data FinanceTracker.mkNew rfl).1,
    (C3_unloaded_returns_no_data FinanceTracker.mkNew rfl).2.1,
    (C3_unloaded_returns_no_data FinanceTracker.mkNew rfl).2.2.1,
    (C3_unloaded_returns_no_data FinanceTracker.mkNew rfl).2.2.2
      ("my_financial_report.xlsx")⟩

/-- C9: after a successful load of zero rows the methods return empty
summaries and all-zero statistics with "N/A" top categories, not the no-data
indicator (the guard tests `self.data is None`, not emptiness). -/
theorem C9_empty_loaded_ledger_not_no_data (t0 : FinanceTracker) :
    ((t0.load_data []).get_monthly_summary).1 = Sum.inr ([] : List SummaryRow) ∧
      ((t0.load_data []).get_category_summary).1 = Sum.inr ([] : List SummaryRow) ∧
      ((t0.load_data []).get_basic_stats).1 =
        Sum.inr ⟨0, 0, 0, 0, 0, "N/A", "N/A", 0⟩ := by
  refine ⟨?_, ?_, ?_⟩ <;> with_unfolding_all rfl

/-- C8: the query methods leave the stored transaction table unchanged and
repeated calls return equal results. -/
theorem C8_queries_leave_ledger_unchanged (t : FinanceTracker) (rows : List Txn)
    (h : t.data = some rows) :
    (t.get_monthly_summary).2 = t ∧
      (t.get_category_summary).2 = t ∧
      (t.get_basic_stats).2 = t ∧
      ((t.get_monthly_summary).2.get_monthly_summary).1 = (t.get_monthly_summary).1 ∧
      ((t.get_category_summary).2.get_category_summary).1 = (t.get_category_summary).1 ∧
      ((t.get_basic_stats).2.get_basic_stats).1 = (t.get_basic_stats).1 := by
  obtain ⟨d⟩ := t
  cases h
  exact ⟨rfl, rfl, rfl, rfl, rfl, rfl⟩

/-- Witness for C8 at the sample tracker. -/
theorem C8_queries_leave_ledger_unchanged_witness :
    sampleTracker.data = some (sampleRaws.map processRow) ∧
      ((sampleTracker.get_monthly_summary).2 = sampleTracker ∧
        (sampleTracker.get_category_summary).2 = sampleTracker ∧
        (sampleTracker.get_basic_stats).2 = sampleTracker ∧
        ((sampleTracker.get_monthly_summary).2.get_monthly_summary).1 =
          (sampleTracker.get_monthly_summary).1 ∧
        ((sampleTracker.get_category_summary).2.get_category_summary).1 =
          (sampleTracker.get_category_summary).1 ∧
        ((sampleTracker.get_basic_stats).2.get_basic_stats).1 =
          (sampleTracker.get_basic_stats).1) :=
  ⟨rfl, C8_queries_leave_ledger_unchanged sampleTracker (sampleRaws.map processRow) rfl⟩

/-- C4: loading the repository's sample ledger (three March-2025 debits of
-100.00, -30.00 and -11.50, no credits) yields total income 0, total expenses
-141.50, balance -141.50, 3 transactions, and a monthly summary with exactly
one entry: key "2025-03", amount -141.50, count 3. -/
theorem C4_sample_round_trip :
    ∃ st : BasicStats,
      (sampleTracker.get_basic_stats).1 = Sum.inr st ∧
        st.totalIncome = 0 ∧
        st.totalExpenses = -141.5 ∧
        st.balance = -141.5 ∧
        st.totalTransactions = 3 ∧
        (sampleTracker.get_monthly_summary).1 =
          Sum.inr [⟨"2025-03", -141.5, 3⟩] := by
  refine ⟨basicStatsOf (sampleRaws.map processRow), rfl, ?_, ?_, ?_, ?_, ?_⟩ <;>
    with_unfolding_all decide

/-- C5: every normalized transaction's `MonthYear` is the zero-padded 4-digit
year and 2-digit month of its posting date joined by a dash (so the year part
has length 4 for any pandas-representable year, the month part length 2), and
two transactions whose posting dates share a calendar month share the key. -/
theorem C5_period_key_format (t0 : FinanceTracker) (raws : List RawRow) (txn : Txn)
    (h : txn ∈ ((t0.load_data raws).data).getD []) :
    txn.monthYear =
        zeroPad 4 (toString txn.dataContabile.year) ++ "-" ++
          zeroPad 2 (toString txn.dataContabile.month) ∧
      (txn.dataContabile.year < 10000 →
        (zeroPad 4 (toString txn.dataContabile.year)).length = 4) ∧
      (txn.dataContabile.month < 100 →
        (zeroPad 2 (toString txn.dataContabile.month)).length = 2) ∧
      ∀ txn2 ∈ ((t0.load_data raws).data).getD [],
        txn.dataContabile.year = txn2.dataContabile.year →
          txn.dataContabile.month = txn2.dataContabile.month →
          txn.monthYear = txn2.monthYear := by
  simp only [FinanceTracker.load_data, Option.getD_some, List.mem_map] at h
  obtain ⟨r, -, rfl⟩ := h
  refine ⟨rfl, ?_, ?_, ?_⟩
  · intro hy
    refine length_zeroPad_of_le 4 _ ?_
    rw [toString_nat_eq_repr]
    refine Nat.repr_length _ 4 (by norm_num) ?_
    have h4 : (10 : Nat) ^ 4 = 10000 := by norm_num
    rw [h4]
    simpa [processRow] using hy
  · intro hm
    refine length_zeroPad_of_le 2 _ ?_
    rw [toString_nat_eq_repr]
    refine Nat.repr_length _ 2 (by norm_num) ?_
    have h2 : (10 : Nat) ^ 2 = 100 := by norm_num
    rw [h2]
    simpa [processRow] using hm
  · intro txn2 h2 hy hm
    simp only [FinanceTracker.load_data, Option.getD_some, List.mem_map] at h2
    obtain ⟨r2, -, rfl⟩ := h2
    simp only [processRow, periodKey] at hy hm ⊢
    rw [hy, hm]

/-- Witness for C5 at the first two sample rows (both dated March 2025). -/
theorem C5_period_key_format_witness :
    processRow sampleRow0 ∈ ((FinanceTracker.mkNew.load_data sampleRaws).data).getD [] ∧
      (processRow sampleRow0).monthYear =
        zeroPad 4 (toString (processRow sampleRow0).dataContabile.year) ++ "-" ++
          zeroPad 2 (toString (processRow sampleRow0).dataContabile.month) ∧
      processRow sampleRow1 ∈ ((FinanceTracker.mkNew.load_data sampleRaws).data).getD [] ∧
      (processRow sampleRow0).monthYear = (processRow sampleRow1).monthYear :=
  ⟨by with_unfolding_all decide,
    (C5_period_key_format FinanceTracker.mkNew sampleRaws (processRow sampleRow0)
      (by with_unfolding_all decide)).1,
    by with_unfolding_all decide,
    (C5_period_key_format FinanceTracker.mkNew sampleRaws (processRow sampleRow0)
      (by with_unfolding_all decide)).2.2.2 (processRow sampleRow1)
      (by with_unfolding_all decide) rfl rfl⟩

/-- In a duplicate-free key list containing `a`, summing `v` at `a` and `0`
elsewhere gives `v`. -/
theorem sum_map_ite_eq {M : Type} [AddCommMonoid M] (a : String) (v : M) :
    ∀ ks : List String, ks.Nodup → a ∈ ks →
      (ks.map fun k => if a = k then v else 0).sum = v := by
  intro ks
  induction ks with
  | nil => intro _ ha; cases ha
  | cons k ks ih =>
    intro hnd ha
    rcases List.mem_cons.1 ha with rfl | ha2
    · simp only [List.map_cons, List.sum_cons, if_pos rfl]
      have hz : (ks.map fun x => if a = x then v else 0).sum = 0 := by
        refine List.sum_eq_zero ?_
        intro x hx
        obtain ⟨k2, hk2, rfl⟩ := List.mem_map.1 hx
        refine if_neg ?_
        intro he
        have : a ∈ ks := by rw [he]; exact hk2
        exact (List.nodup_cons.1 hnd).1 this
      rw [hz, add_zero]
      simp
    · have hne : a ≠ k := by
        intro he
        have : k ∈ ks := by rw [← he]; exact ha2
        exact (List.nodup_cons.1 hnd).1 this
      simp only [List.map_cons, List.sum_cons, if_neg hne, zero_add]
      exact ih (List.nodup_cons.1 hnd).2 ha2

/-- Grouping a list of rows by a duplicate-free covering key list partitions
any additive quantity: the per-group sums add up to the global sum. -/
theorem sum_map_filter_partition {M : Type} [AddCommMonoid M]
    (f : Txn → String) (g : Txn → M) (ks : List String) (hnd : ks.Nodup) :
    ∀ rows : List Txn, (∀ t ∈ rows, f t ∈ ks) →
      (ks.map fun k => ((rows.filter fun t => f t = k).map g).sum).sum
        = (rows.map g).sum := by
  intro rows
  induction rows with
  | nil =>
    intro _
    simp only [List.filter_nil, List.map_nil, List.sum_nil]
    refine List.sum_eq_zero ?_
    intro x hx
    obtain ⟨k, -, rfl⟩ := List.mem_map.1 hx
    rfl
  | cons a l ih =>
    intro hcov
    have hmemks : f a ∈ ks := hcov a (List.mem_cons_self a l)
    have hl : ∀ t ∈ l, f t ∈ ks := fun t ht => hcov t (List.mem_cons_of_mem a ht)
    have hstep : (ks.map fun k => (((a :: l).filter fun t => f t = k).map g).sum)
        = ks.map fun k =>
            (if f a = k then g a else 0) + ((l.filter fun t => f t = k).map g).sum := by
      refine List.map_congr_left ?_
      intro k _
      by_cases hk : f a = k
      · simp [List.filter_cons, hk]
      · simp [List.filter_cons, hk]
    rw [hstep, List.sum_map_add, sum_map_ite_eq (f a) (g a) ks hnd hmemks, ih hl]
    simp

/-- Counting version of `sum_map_filter_partition`: per-group row counts add
up to the total row count. -/
theorem length_filter_partition (f : Txn → String) (ks : List String)
    (hnd : ks.Nodup) (rows : List Txn) (hcov : ∀ t ∈ rows, f t ∈ ks) :
    (ks.map fun k => (rows.filter fun t => f t = k).length).sum = rows.length := by
  have hlen : ∀ m : List Txn, (m.map fun _ => (1 : ℕ)).sum = m.length := by
    intro m
    induction m with
    | nil => rfl
    | cons b m ih =>
      rw [List.map_cons, List.sum_cons, ih, List.length_cons]
      omega
  calc (ks.map fun k => (rows.filter fun t => f t = k).length).sum
      = (ks.map fun k => ((rows.filter fun t => f t = k).map fun _ => (1 : ℕ)).sum).sum := by
        refine congrArg List.sum ?_
        refine List.map_congr_left ?_
        intro k _
        rw [hlen]
    _ = (rows.map fun _ => (1 : ℕ)).sum := sum_map_filter_partition f _ ks hnd rows hcov
    _ = rows.length := hlen rows

/-- The group-key list produced by `groupby` is duplicate-free. -/
theorem nodup_groupKeys (rows : List Txn) (f : Txn → String) :
    (groupKeys rows f).Nodup :=
  ((List.mergeSort_perm ((rows.map f).dedup) strLe).symm).nodup
    (List.nodup_dedup (rows.map f))

/-- Membership in the group-key list is membership among the rows' keys. -/
theorem mem_groupKeys {rows : List Txn} {f : Txn → String} {k : String} :
    k ∈ groupKeys rows f ↔ k ∈ rows.map f := by
  unfold groupKeys
  rw [(List.mergeSort_perm ((rows.map f).dedup) strLe).mem_iff, List.mem_dedup]

/-- Every row's key appears in the group-key list. -/
theorem cover_groupKeys (rows : List Txn) (f : Txn → String) :
    ∀ t ∈ rows, f t ∈ groupKeys rows f := fun _ ht =>
  mem_groupKeys.2 (List.mem_map_of_mem f ht)

/-- The group-key list is sorted ascending. -/
theorem sorted_groupKeys (rows : List Txn) (f : Txn → String) :
    List.Pairwise (fun a b : String => a ≤ b) (groupKeys rows f) := by
  have htrans : ∀ a b c : String, strLe a b = true → strLe b c = true →
      strLe a c = true := by
    intro a b c hab hbc
    simp only [strLe, decide_eq_true_eq] at hab hbc ⊢
    exact le_trans hab hbc
  have htotal : ∀ a b : String, (strLe a b || strLe b a) = true := by
    intro a b
    simp only [strLe, Bool.or_eq_true, decide_eq_true_eq]
    exact le_total a b
  have h := @List.sorted_mergeSort String strLe htrans htotal ((rows.map f).dedup)
  exact List.Pairwise.imp (fun hab => by simpa [strLe] using hab) h

/-- C2: `get_monthly_summary` on a loaded ledger partitions it by period key:
the per-period counts sum to the row count, the per-period amounts sum to the
ledger-wide amount total, and entries are sorted ascending by period key. -/
theorem C2_monthly_summary_partition (rows : List Txn) :
    ∃ ms : List SummaryRow,
      ((FinanceTracker.mk (some rows)).get_monthly_summary).1 = Sum.inr ms ∧
        (ms.map SummaryRow.transactions).sum = rows.length ∧
        (ms.map SummaryRow.amount).sum = (rows.map Txn.amount).sum ∧
        List.Chain' (fun a b : SummaryRow => a.key ≤ b.key) ms := by
  refine ⟨summarizeBy rows Txn.monthYear, rfl, ?_, ?_, ?_⟩
  · unfold summarizeBy
    rw [List.map_map]
    exact length_filter_partition Txn.monthYear (groupKeys rows Txn.monthYear)
      (nodup_groupKeys rows Txn.monthYear) rows (cover_groupKeys rows Txn.monthYear)
  · unfold summarizeBy
    rw [List.map_map]
    exact sum_map_filter_partition Txn.monthYear Txn.amount
      (groupKeys rows Txn.monthYear) (nodup_groupKeys rows Txn.monthYear) rows
      (cover_groupKeys rows Txn.monthYear)
  · refine List.Pairwise.chain' ?_
    unfold summarizeBy
    exact List.Pairwise.map _ (fun a b hab => hab) (sorted_groupKeys rows Txn.monthYear)

/-- C6: `get_category_summary` on a loaded ledger returns entries sorted
ascending by summed amount: each adjacent pair is ordered. -/
theorem C6_category_summary_sorted (rows : List Txn) :
    ∃ cs : List SummaryRow,
      ((FinanceTracker.mk (some rows)).get_category_summary).1 = Sum.inr cs ∧
        List.Chain' (fun a b : SummaryRow => a.amount ≤ b.amount) cs := by
  refine ⟨(summarizeBy rows Txn.categoria).mergeSort amtLe, rfl, ?_⟩
  have htrans : ∀ a b c : SummaryRow, amtLe a b = true → amtLe b c = true →
      amtLe a c = true := by
    intro a b c hab hbc
    simp only [amtLe, decide_eq_true_eq] at hab hbc ⊢
    exact le_trans hab hbc
  have htotal : ∀ a b : SummaryRow, (amtLe a b || amtLe b a) = true := by
    intro a b
    simp only [amtLe, Bool.or_eq_true, decide_eq_true_eq]
    exact le_total a.amount b.amount
  have h := @List.sorted_mergeSort SummaryRow amtLe htrans htotal
    (summarizeBy rows Txn.categoria)
  exact (List.Pairwise.imp (fun hab => by simpa [amtLe] using hab) h).chain'

/-- The `idxmax` fold returns one of the candidate pairs. -/
theorem idxmaxPair_mem (l : List (String × ℚ)) :
    ∀ best : String × ℚ, idxmaxPair best l ∈ best :: l := by
  induction l with
  | nil => intro best; simp [idxmaxPair]
  | cons p rest ih =>
    intro best
    simp only [idxmaxPair]
    by_cases h : best.2 < p.2
    · rw [if_pos h]
      exact List.mem_cons_of_mem best (ih p)
    · rw [if_neg h]
      rcases List.mem_cons.1 (ih best) with he | hm
      · rw [he]
        exact List.mem_cons_self best (p :: rest)
      · exact List.mem_cons_of_mem best (List.mem_cons_of_mem p hm)

/-- The `idxmax` fold returns a pair whose value dominates every candidate. -/
theorem idxmaxPair_ge (l : List (String × ℚ)) :
    ∀ best q, q ∈ best :: l → q.2 ≤ (idxmaxPair best l).2 := by
  induction l with
  | nil =>
    intro best q hq
    simp only [idxmaxPair]
    rcases List.mem_cons.1 hq with rfl | hq2
    · exact le_refl _
    · exact absurd hq2 (List.not_mem_nil q)
  | cons p rest ih =>
    intro best q hq
    simp only [idxmaxPair]
    by_cases h : best.2 < p.2
    · rw [if_pos h]
      rcases List.mem_cons.1 hq with rfl | hq2
      · exact le_trans (le_of_lt h) (ih p p (List.mem_cons_self p rest))
      · exact ih p q hq2
    · rw [if_neg h]
      rcases List.mem_cons.1 hq with rfl | hq2
      · exact ih _ _ (List.mem_cons_self _ _)
      · rcases List.mem_cons.1 hq2 with rfl | hq3
        · exact le_trans (not_lt.1 h) (ih best best (List.mem_cons_self best rest))
        · exact ih best q (List.mem_cons_of_mem best hq3)

/-- On a series indexed by a nonempty key list, `idxmax` returns a key whose
value dominates every key's value. -/
theorem seriesIdxmax_spec (v : String → ℚ) (ks : List String) (hne : ks ≠ []) :
    ∃ c, seriesIdxmax (ks.map fun k => (k, v k)) = some c ∧ c ∈ ks ∧
      ∀ k ∈ ks, v k ≤ v c := by
  cases ks with
  | nil => exact absurd rfl hne
  | cons k0 ktl =>
    have hmem : idxmaxPair (k0, v k0) (ktl.map fun k => (k, v k)) ∈
        (k0 :: ktl).map fun k => (k, v k) := by
      simpa using idxmaxPair_mem (ktl.map fun k => (k, v k)) (k0, v k0)
    obtain ⟨c, hc, hpair⟩ := List.mem_map.1 hmem
    refine ⟨(idxmaxPair (k0, v k0) (ktl.map fun k => (k, v k))).1, rfl, ?_, ?_⟩
    · rw [← hpair]
      exact hc
    · intro k hk
      have hq : (k, v k) ∈ (k0, v k0) :: ktl.map fun k => (k, v k) := by
        have h2 : (k, v k) ∈ (k0 :: ktl).map fun k => (k, v k) :=
          List.mem_map_of_mem _ hk
        simpa using h2
      have hge := idxmaxPair_ge (ktl.map fun k => (k, v k)) (k0, v k0) (k, v k) hq
      rw [← hpair] at hge ⊢
      exact hge

/-- A nonempty sub-ledger has a nonempty group-key list. -/
theorem groupKeys_ne_nil {rows : List Txn} {f : Txn → String} (h : rows ≠ []) :
    groupKeys rows f ≠ [] := by
  cases rows with
  | nil => exact absurd rfl h
  | cons a l =>
    intro he
    have hm : f a ∈ groupKeys (a :: l) f :=
      cover_groupKeys (a :: l) f a (List.mem_cons_self a l)
    rw [he] at hm
    exact List.not_mem_nil _ hm

/-- `idxmax` over a category-indexed series of a nonempty sub-ledger picks a
category of the sub-ledger maximizing the given value. -/
theorem getD_seriesIdxmax_spec (v : String → ℚ) (sub : List Txn) (h : sub ≠ []) :
    ∃ c,
      (seriesIdxmax ((groupKeys sub Txn.categoria).map fun k => (k, v k))).getD ("N/A")
          = c ∧
        c ∈ sub.map Txn.categoria ∧ ∀ k ∈ sub.map Txn.categoria, v k ≤ v c := by
  obtain ⟨c, hidx, hc, hmax⟩ :=
    seriesIdxmax_spec v (groupKeys sub Txn.categoria) (groupKeys_ne_nil h)
  refine ⟨c, ?_, mem_groupKeys.1 hc, fun k hk => hmax k (mem_groupKeys.2 hk)⟩
  rw [hidx]
  rfl

/-- C7: on a loaded ledger `get_basic_stats` returns averages equal to the
spec's means (zero when the filtered side is empty) and top categories that
maximize the per-category summed amount (by absolute value on the expense
side), with `"N/A"` exactly when the corresponding side is empty. -/
theorem C7_basic_stats_spec (rows : List Txn) :
    ∃ st : BasicStats,
      ((FinanceTracker.mk (some rows)).get_basic_stats).1 = Sum.inr st ∧
        st.averageExpense
            = specMean ((rows.filter fun x => x.amount < 0).map Txn.amount) ∧
        st.averageIncome
            = specMean ((rows.filter fun x => 0 < x.amount).map Txn.amount) ∧
        ((rows.filter fun x => x.amount < 0) = [] →
          st.topExpenseCategory = "N/A") ∧
        ((rows.filter fun x => x.amount < 0) ≠ [] →
          st.topExpenseCategory ∈ (rows.filter fun x => x.amount < 0).map Txn.categoria ∧
            ∀ c ∈ (rows.filter fun x => x.amount < 0).map Txn.categoria,
              |(((rows.filter fun x => x.amount < 0).filter
                    fun t => t.categoria = c).map Txn.amount).sum|
                ≤ |(((rows.filter fun x => x.amount < 0).filter
                      fun t => t.categoria = st.topExpenseCategory).map Txn.amount).sum|) ∧
        ((rows.filter fun x => 0 < x.amount) = [] →
          st.topIncomeCategory = "N/A") ∧
        ((rows.filter fun x => 0 < x.amount) ≠ [] →
          st.topIncomeCategory ∈ (rows.filter fun x => 0 < x.amount).map Txn.categoria ∧
            ∀ c ∈ (rows.filter fun x => 0 < x.amount).map Txn.categoria,
              (((rows.filter fun x => 0 < x.amount).filter
                    fun t => t.categoria = c).map Txn.amount).sum
                ≤ (((rows.filter fun x => 0 < x.amount).filter
                      fun t => t.categoria = st.topIncomeCategory).map Txn.amount).sum) := by
  refine ⟨basicStatsOf rows, rfl, ?_, ?_, ?_, ?_, ?_, ?_⟩
  · by_cases h : (rows.filter fun x => x.amount < 0) = []
    · simp [basicStatsOf, specMean, h]
    · have hlen : 0 < (rows.filter fun x => x.amount < 0).length :=
        List.length_pos.2 h
      simp [basicStatsOf, specMean, h, hlen, List.length_map, List.map_eq_nil_iff]
  · by_cases h : (rows.filter fun x => 0 < x.amount) = []
    · simp [basicStatsOf, specMean, h]
    · have hlen : 0 < (rows.filter fun x => 0 < x.amount).length :=
        List.length_pos.2 h
      simp [basicStatsOf, specMean, h, hlen, List.length_map, List.map_eq_nil_iff]
  · intro h
    simp [basicStatsOf, List.isEmpty_iff, h]
  · intro h
    obtain ⟨c, hgd, hc, hmax⟩ := getD_seriesIdxmax_spec
      (fun k => |(((rows.filter fun x => x.amount < 0).filter
          fun t => t.categoria = k).map Txn.amount).sum|)
      (rows.filter fun x => x.amount < 0) h
    have hser : ((catAmountSums (rows.filter fun x => x.amount < 0)).map
          fun p => (p.1, |p.2|))
        = (groupKeys (rows.filter fun x => x.amount < 0) Txn.categoria).map
            fun k => (k, |(((rows.filter fun x => x.amount < 0).filter
                fun t => t.categoria = k).map Txn.amount).sum|) := by
      unfold catAmountSums
      rw [List.map_map]
      rfl
    have htop : (basicStatsOf rows).topExpenseCategory = c := by
      simp only [basicStatsOf, List.isEmpty_iff]
      rw [if_neg h, hser]
      exact hgd
    rw [htop]
    exact ⟨hc, hmax⟩
  · intro h
    simp [basicStatsOf, List.isEmpty_iff, h]
  · intro h
    obtain ⟨c, hgd, hc, hmax⟩ := getD_seriesIdxmax_spec
      (fun k => (((rows.filter fun x => 0 < x.amount).filter
          fun t => t.categoria = k).map Txn.amount).sum)
      (rows.filter fun x => 0 < x.amount) h
    have hser : catAmountSums (rows.filter fun x => 0 < x.amount)
        = (groupKeys (rows.filter fun x => 0 < x.amount) Txn.categoria).map
            fun k => (k, (((rows.filter fun x => 0 < x.amount).filter
                fun t => t.categoria = k).map Txn.amount).sum) := rfl
    have htop : (basicStatsOf rows).topIncomeCategory = c := by
      simp only [basicStatsOf, List.isEmpty_iff]
      rw [if_neg h, hser]
      exact hgd
    rw [htop]
    exact ⟨hc, hmax⟩

/-- Summing the strictly positive and the strictly negative amounts gives the
sum of all amounts (amount-zero rows contribute nothing). -/
theorem sum_pos_add_sum_neg (rows : List Txn) :
    ((rows.filter fun x => 0 < x.amount).map Txn.amount).sum
      + ((rows.filter fun x => x.amount < 0).map Txn.amount).sum
      = (rows.map Txn.amount).sum := by
  induction rows with
  | nil => simp
  | cons a l ih =>
    rcases lt_trichotomy a.amount 0 with h | h | h
    · have h1 : ¬ (0 < a.amount) := not_lt.2 (le_of_lt h)
      simp only [List.filter_cons, List.map_cons, List.sum_cons]
      rw [if_neg (by simpa using h1), if_pos (by simpa using h)]
      simp only [List.map_cons, List.sum_cons]
      rw [← ih]
      ring
    · have h1 : ¬ (0 < a.amount) := by rw [h]; exact lt_irrefl 0
      have h2 : ¬ (a.amount < 0) := by rw [h]; exact lt_irrefl 0
      simp only [List.filter_cons, List.map_cons, List.sum_cons]
      rw [if_neg (by simpa using h1), if_neg (by simpa using h2), h, ← ih]
      ring
    · have h2 : ¬ (a.amount < 0) := not_lt.2 (le_of_lt h)
      simp only [List.filter_cons, List.map_cons, List.sum_cons]
      rw [if_pos (by simpa using h), if_neg (by simpa using h2)]
      simp only [List.map_cons, List.sum_cons]
      rw [← ih]
      ring

/-- C10: a zero-amount transaction is counted in the transaction total but
changes none of the totals, averages or top categories (the sign filters are
strict), and the reported balance still equals the sum of all amounts. -/
theorem C10_zero_amount_transaction (pre post : List Txn) (z : Txn)
    (hz : z.amount = 0) :
    ∃ st stz : BasicStats,
      ((FinanceTracker.mk (some (pre ++ post))).get_basic_stats).1 = Sum.inr st ∧
        ((FinanceTracker.mk (some (pre ++ z :: post))).get_basic_stats).1
            = Sum.inr stz ∧
        stz.totalTransactions = st.totalTransactions + 1 ∧
        stz.totalIncome = st.totalIncome ∧
        stz.totalExpenses = st.totalExpenses ∧
        stz.balance = st.balance ∧
        stz.averageExpense = st.averageExpense ∧
        stz.averageIncome = st.averageIncome ∧
        stz.topExpenseCategory = st.topExpenseCategory ∧
        stz.topIncomeCategory = st.topIncomeCategory ∧
        stz.balance = ((pre ++ z :: post).map Txn.amount).sum := by
  have hpos : (pre ++ z :: post).filter (fun x => 0 < x.amount)
      = (pre ++ post).filter (fun x => 0 < x.amount) := by
    simp [List.filter_append, List.filter_cons, hz]
  have hneg : (pre ++ z :: post).filter (fun x => x.amount < 0)
      = (pre ++ post).filter (fun x => x.amount < 0) := by
    simp [List.filter_append, List.filter_cons, hz]
  refine ⟨basicStatsOf (pre ++ post), basicStatsOf (pre ++ z :: post), rfl, rfl,
    ?_, ?_, ?_, ?_, ?_, ?_, ?_, ?_, ?_⟩
  · simp only [basicStatsOf]
    simp only [List.length_append, List.length_cons]
    omega
  · simp only [basicStatsOf]
    rw [hpos]
  · simp only [basicStatsOf]
    rw [hneg]
  · simp only [basicStatsOf]
    rw [hpos, hneg]
  · simp only [basicStatsOf]
    rw [hneg]
  · simp only [basicStatsOf]
    rw [hpos]
  · simp only [basicStatsOf]
    rw [hneg]
  · simp only [basicStatsOf]
    rw [hpos]
  · simp only [basicStatsOf]
    exact sum_pos_add_sum_neg (pre ++ z :: post)

/-- Witness for C10 at a concrete zero-amount transaction. -/
theorem C10_zero_amount_transaction_witness :
    zeroTxn.amount = 0 ∧
      ∃ st stz : BasicStats,
        ((FinanceTracker.mk (some ([] ++ []))).get_basic_stats).1 = Sum.inr st ∧
          ((FinanceTracker.mk (some ([] ++ zeroTxn :: []))).get_basic_stats).1
              = Sum.inr stz ∧
          stz.totalTransactions = st.totalTransactions + 1 ∧
          stz.totalIncome = st.totalIncome ∧
          stz.totalExpenses = st.totalExpenses ∧
          stz.balance = st.balance ∧
          stz.averageExpense = st.averageExpense ∧
          stz.averageIncome = st.averageIncome ∧
          stz.topExpenseCategory = st.topExpenseCategory ∧
          stz.topIncomeCategory = st.topIncomeCategory ∧
          stz.balance = (([] ++ zeroTxn :: []).map Txn.amount).sum :=
  ⟨rfl, C10_zero_amount_transaction [] [] zeroTxn rfl⟩
